import Mathlib

/-!
Verification of the sandbox lifecycle record store (`convex` sandboxes
module), the repository clone route, and the git URL helpers of the
open-lovable repository.  Convex mutations that `throw` are embedded as
`Except String`; `Date.now()` is passed in as an explicit `now : Nat`
(milliseconds); a Convex table is a list of documents paired with their
internal id, in insertion order, so that an indexed `.first()` query is the
first matching element of the list.
-/

/-- Status values of the `sandboxes` table
(`v.union(v.literal("creating"), …)`). -/
inductive SandboxStatus where
  | creating
  | running
  | stopped
  | error
deriving DecidableEq, Repr

/-- One document of the `sandboxes` table.  `url` is an optional field;
Convex `patch` with an explicitly `undefined` value removes the field, so an
absent field is `none`. -/
structure SandboxRecord where
  userId : Nat
  projectId : Option Nat
  sandboxId : String
  name : String
  url : Option String
  status : SandboxStatus
  startedAt : Nat
  lastActiveAt : Nat
  autoStopAt : Nat
  isTemporary : Bool
deriving DecidableEq, Repr

/-- The record store: the `sandboxes` table plus the two dependent tables
read by `deleteSandbox` (`fileSnapshots` and `chatHistory` are kept only as
(internal id, back-reference to the sandbox document id) pairs, which is all
the delete cascade consults).  `nextId` models Convex allocating a fresh
internal id on insert. -/
structure SandboxDB where
  sandboxes : List (Nat × SandboxRecord)
  fileSnapshots : List (Nat × Nat)
  chatHistory : List (Nat × Nat)
  nextId : Nat
deriving DecidableEq, Repr

/-- The fixed grace window: `15 * 60 * 1000` milliseconds, as written in
`createSandbox` and `updateSandboxActivity`. -/
def graceWindowMs : Nat := 15 * 60 * 1000

/-- The `by_sandbox_id` indexed query followed by `.first()`: the first
document whose `sandboxId` field equals the argument. -/
def findBySandboxId (sid : String) (db : SandboxDB) : Option (Nat × SandboxRecord) :=
  db.sandboxes.find? (fun p => p.2.sandboxId == sid)

/-- Convex `ctx.db.patch(id, …)`: rewrite the document with the given internal id
in place, leaving every other document unchanged. -/
def patchSandbox (id : Nat) (f : SandboxRecord → SandboxRecord) (db : SandboxDB) : SandboxDB :=
  { db with sandboxes := db.sandboxes.map (fun p => if p.1 == id then (p.1, f p.2) else p) }

/-- Mutation `createSandbox`: insert a new record with status `creating`,
`startedAt = lastActiveAt = now` and `autoStopAt = now + 15 * 60 * 1000`;
`isTemporary` defaults to `false` (`args.isTemporary || false`). -/
def createSandbox (now : Nat) (userId : Nat) (projectId : Option Nat)
    (sandboxId name : String) (url : Option String) (isTemporary : Option Bool)
    (db : SandboxDB) : Nat × SandboxDB :=
  let autoStopAt := now + 15 * 60 * 1000
  let doc : SandboxRecord :=
    { userId := userId
      projectId := projectId
      sandboxId := sandboxId
      name := name
      url := url
      status := SandboxStatus.creating
      startedAt := now
      lastActiveAt := now
      autoStopAt := autoStopAt
      isTemporary := isTemporary.getD false }
  (db.nextId,
   { db with sandboxes := db.sandboxes ++ [(db.nextId, doc)], nextId := db.nextId + 1 })

/-- Mutation `updateSandboxStatus`: locate the record by `sandboxId` (throwing
"Sandbox not found" when absent) and patch `status`, `url` and
`lastActiveAt`.  The patch writes `url: args.url` unconditionally, so an
omitted `url` argument (`none`) removes the stored field; `autoStopAt` is
not touched. -/
def updateSandboxStatus (now : Nat) (sid : String) (status : SandboxStatus)
    (url : Option String) (db : SandboxDB) : Except String (Nat × SandboxDB) :=
  match findBySandboxId sid db with
  | none => Except.error "Sandbox not found"
  | some (id, _) =>
      Except.ok (id, patchSandbox id
        (fun r => { r with status := status, url := url, lastActiveAt := now }) db)

/-- Mutation `updateSandboxActivity`: locate the record by `sandboxId` (throwing
"Sandbox not found" when absent) and patch `lastActiveAt := now` and
`autoStopAt := now + 15 * 60 * 1000` together. -/
def updateSandboxActivity (now : Nat) (sid : String) (db : SandboxDB) :
    Except String (Nat × SandboxDB) :=
  match findBySandboxId sid db with
  | none => Except.error "Sandbox not found"
  | some (id, _) =>
      let newAutoStopAt := now + 15 * 60 * 1000
      Except.ok (id, patchSandbox id
        (fun r => { r with lastActiveAt := now, autoStopAt := newAutoStopAt }) db)

/-- Mutation `stopSandbox`: locate the record by `sandboxId` (throwing "Sandbox not
found" when absent) and patch `status := stopped` and `lastActiveAt := now`;
`autoStopAt` is not touched. -/
def stopSandbox (now : Nat) (sid : String) (db : SandboxDB) :
    Except String (Nat × SandboxDB) :=
  match findBySandboxId sid db with
  | none => Except.error "Sandbox not found"
  | some (id, _) =>
      Except.ok (id, patchSandbox id
        (fun r => { r with status := SandboxStatus.stopped, lastActiveAt := now }) db)

/-- Query `getSandboxesToAutoStop`: the `by_status` index restricted to `running`,
then filtered by `q.lt(q.field("autoStopAt"), now)`. -/
def getSandboxesToAutoStop (now : Nat) (db : SandboxDB) : List (Nat × SandboxRecord) :=
  (db.sandboxes.filter (fun p => p.2.status == SandboxStatus.running)).filter
    (fun p => decide (p.2.autoStopAt < now))

/-- Mutation `deleteSandbox`: locate the record by `sandboxId` (throwing "Sandbox not
found" when absent), then delete every `fileSnapshots` and `chatHistory`
document whose back-reference is the record's internal id, then the record
itself. -/
def deleteSandbox (sid : String) (db : SandboxDB) : Except String (Nat × SandboxDB) :=
  match findBySandboxId sid db with
  | none => Except.error "Sandbox not found"
  | some (id, _) =>
      Except.ok (id,
        { db with
          fileSnapshots := db.fileSnapshots.filter (fun s => !(s.2 == id))
          chatHistory := db.chatHistory.filter (fun c => !(c.2 == id))
          sandboxes := db.sandboxes.filter (fun p => !(p.1 == id)) })

/-!
Git URL helpers: `parseGitUrl`, `validateRepository`, `getBranches`.

The two regexes of `parseGitUrl` are embedded directly: an unanchored JS
`match` scans start positions left to right; at one position the pattern is
a fixed literal followed by `([^\/]+)\/([^\/\?]+)`, whose greedy character
classes admit no useful backtracking, so each capture is the maximal
nonempty run.
-/

/-- The capture part `([^\/]+)\/([^\/\?]+)`: a maximal nonempty run of
non-slash characters, a slash, then a maximal nonempty run of characters
that are neither slash nor question mark. -/
def captureTwo (l : List Char) : Option (List Char × List Char) :=
  let owner := l.takeWhile (fun c => !(c == '/'))
  match l.dropWhile (fun c => !(c == '/')) with
  | '/' :: rest =>
      let name := rest.takeWhile (fun c => !(c == '/') && !(c == '?'))
      if owner.isEmpty || name.isEmpty then none else some (owner, name)
  | _ => none

/-- Unanchored `String.prototype.match` for "literal then the two
captures": try every start position left to right, returning the first
position where the whole pattern matches. -/
def matchCapture (lit : List Char) : List Char → Option (List Char × List Char)
  | [] => none
  | c :: cs =>
      match (if lit.isPrefixOf (c :: cs) then captureTwo ((c :: cs).drop lit.length) else none) with
      | some r => some r
      | none => matchCapture lit cs

def httpsLit : List Char := "https://github.com/".data

def sshLit : List Char := "git@github.com:".data

def dotGit : List Char := ".git".data

/-- The `GitRepoInfo` result of `parseGitUrl`. -/
structure GitRepoInfo where
  url : String
  name : String
  owner : String
  branch : String
  isPrivate : Bool
deriving DecidableEq, Repr

/-- The ".git"-stripping step of `parseGitUrl`: `endsWith('.git')` then
`slice(0, -4)`. -/
def cleanOf (chars : List Char) : List Char :=
  if List.isSuffixOf dotGit chars then chars.take (chars.length - 4) else chars

/-- Function `parseGitUrl`: strip one trailing ".git" (`endsWith` then
`slice(0, -4)`), then try the HTTPS regex, then the SSH regex; `null` when
neither matches. -/
def parseGitUrl (gitUrl : String) : Option GitRepoInfo :=
  let cleanUrl := cleanOf gitUrl.data
  match matchCapture httpsLit cleanUrl with
  | some (owner, name) =>
      some { url := gitUrl, name := String.mk name, owner := String.mk owner,
             branch := "main", isPrivate := false }
  | none =>
      match matchCapture sshLit cleanUrl with
      | some (owner, name) =>
          some { url := gitUrl, name := String.mk name, owner := String.mk owner,
                 branch := "main", isPrivate := false }
      | none => none

/-- What the code reads off a GitHub API response: the status code,
`response.ok`, and the decoded JSON fields it consults (`data.private`,
`data.default_branch`; for the branches endpoint, the branch names). -/
structure GhResponse where
  status : Nat
  ok : Bool
  privateFlag : Bool
  defaultBranch : Option String
  branches : List String
deriving DecidableEq, Repr

/-- The ambient `fetch`: a response for every (url, headers) pair; `none`
headers is a bare `fetch(url)` call with no init object. -/
def FetchEnv : Type := String → Option (List (String × String)) → GhResponse

/-- JavaScript `x || "main"` on the decoded `default_branch` field: an
absent or empty string falls back to "main". -/
def jsOrMain (s : Option String) : String :=
  match s with
  | some s => if s == "" then "main" else s
  | none => "main"

/-- The result shape of `validateRepository`. -/
structure RepoValidation where
  exists_ : Bool
  isPrivate : Bool
  defaultBranch : String
  error : Option String
deriving DecidableEq, Repr

/-- The headers object both `validateRepository` and `getBranches` build:
the Accept header plus, when an access token is supplied, an Authorization
header carrying it. -/
def ghHeaders (accessToken : Option String) : List (String × String) :=
  [("Accept", "application/vnd.github.v3+json")] ++
    (match accessToken with
     | some t => [("Authorization", "token " ++ t)]
     | none => [])

/-- Function `validateRepository`: parse the URL, build `headers`, then call
`fetch(apiUrl)` — the source passes no init object, so the headers it just
built are never attached — and branch on the status code. -/
def validateRepository (env : FetchEnv) (gitUrl : String) (accessToken : Option String) :
    RepoValidation :=
  match parseGitUrl gitUrl with
  | none =>
      { exists_ := false, isPrivate := false, defaultBranch := "main",
        error := some "Invalid Git URL" }
  | some repoInfo =>
      let apiUrl := "https://api.github.com/repos/" ++ repoInfo.owner ++ "/" ++ repoInfo.name
      let headers := ghHeaders accessToken
      let response := env apiUrl none
      if response.status == 200 then
        { exists_ := true, isPrivate := response.privateFlag,
          defaultBranch := jsOrMain response.defaultBranch, error := none }
      else if response.status == 404 then
        { exists_ := false, isPrivate := false, defaultBranch := "main",
          error := some "Repository not found or not accessible" }
      else if response.status == 403 then
        { exists_ := true, isPrivate := true, defaultBranch := "main",
          error := some "Repository is private and requires authentication" }
      else
        { exists_ := false, isPrivate := false, defaultBranch := "main",
          error := some ("GitHub API error: " ++ toString response.status) }

/-- Function `getBranches`: parse the URL, build `headers`, call `fetch(apiUrl)`
(again without the init object), and on `response.ok` return the branch
names, else `["main"]`. -/
def getBranches (env : FetchEnv) (gitUrl : String) (accessToken : Option String) :
    List String :=
  match parseGitUrl gitUrl with
  | none => ["main"]
  | some repoInfo =>
      let apiUrl := "https://api.github.com/repos/" ++ repoInfo.owner ++ "/" ++ repoInfo.name
                      ++ "/branches"
      let headers := ghHeaders accessToken
      let response := env apiUrl none
      if response.ok then response.branches else ["main"]

/-!
The clone route, a Next.js POST handler.

The handler is embedded as a function of the request body and an ambient
`CloneEnv` describing the session and the remote sandbox behaviour for this
request; it returns the list of remote sandbox calls issued, in order,
together with the response.
-/

/-- The request body, taken already well-typed (zod type errors on missing
or mistyped fields are out of scope; the refinements the schema adds on top
of the types are in `cloneSchemaParse`). -/
structure RawCloneRequest where
  gitUrl : String
  branch : Option String
  projectName : String
  description : Option String
  isPrivate : Option Bool
  accessToken : Option String
  sandboxId : Option String
deriving DecidableEq, Repr

/-- The parsed body after schema defaults are applied. -/
structure ParsedClone where
  gitUrl : String
  branch : String
  projectName : String
  description : Option String
  isPrivate : Bool
  accessToken : Option String
  sandboxId : Option String
deriving DecidableEq, Repr

/-- Split a character list around the first occurrence of "://": the part
before it and the part after it, or `none` when it does not occur. -/
def findSchemeSep : List Char → Option (List Char × List Char)
  | [] => none
  | c :: cs =>
      if "://".data.isPrefixOf (c :: cs) then some ([], (c :: cs).drop 3)
      else
        match findSchemeSep cs with
        | some (pre, post) => some (c :: pre, post)
        | none => none

/-- Modelled from the spec: the URL refinement of the schema is
`z.string().url()` from the external zod library, whose code is not part of
the repository; modelled as a nonempty all-letter scheme, the separator
"://", and a nonempty remainder. -/
def zodIsUrl (s : String) : Bool :=
  match findSchemeSep s.data with
  | some (scheme, rest) => !scheme.isEmpty && scheme.all Char.isAlpha && !rest.isEmpty
  | none => false

/-- Parsing with `cloneSchema`: `gitUrl` must satisfy the URL refinement and
`projectName` must be nonempty (`min(1)`); `branch` defaults to "main" and
`isPrivate` to `false`.  A failing parse raises `ZodError`, which the route
maps to a 400 response; the failure is modelled as `none`. -/
def cloneSchemaParse (b : RawCloneRequest) : Option ParsedClone :=
  if zodIsUrl b.gitUrl && decide (1 ≤ b.projectName.length) then
    some { gitUrl := b.gitUrl, branch := b.branch.getD "main",
           projectName := b.projectName, description := b.description,
           isPrivate := b.isPrivate.getD false, accessToken := b.accessToken,
           sandboxId := b.sandboxId }
  else none

/-- The remote sandbox calls the route can issue. -/
inductive RemoteAction where
  | createNew
  | connectExisting (id : String)
  | runClone (command : String)
  | runInspect
  | runNpmInstall
  | runStartServer
  | closeSandbox
deriving DecidableEq, Repr

/-- The fields of the inspection JSON that the route reads back. -/
structure ProjectInfo where
  success : Bool
  error : Option String
  hasPackageJson : Bool
deriving DecidableEq, Repr

/-- The ambient behaviour of the session and the remote sandbox for one
request.  `inspectText` models `checkResult.results[0]?.text`: `none` when
the text is absent (the route falls back to the literal
`'{"success": false}'`), `some none` when text is present but its last line
is not valid JSON, `some (some pi)` when it decodes to `pi`.
`cloneExitCode` is the exit status of the `git clone` command inside the
sandbox, which the route never reads.  `scripts` is the set of script names
in the cloned package manifest, read only by the launch snippet. -/
structure CloneEnv where
  sessionOk : Bool
  createOk : Bool
  newSandboxId : String
  cloneExitCode : Int
  inspectText : Option (Option ProjectInfo)
  scripts : List String
  hostname3000 : String
  hostname5173 : String
  devServerThrows : Bool
deriving Repr

/-- The JSON response, restricted to the fields the claims consult: status
and error string on failure; `sandboxId` and `serverUrl` (with the implicit
`success: true`) on success. -/
inductive CloneResponse where
  | failure (status : Nat) (error : String)
  | ok (sandboxId : String) (serverUrl : Option String)
deriving DecidableEq, Repr

/-- JavaScript `String.prototype.replace` with a plain-string pattern and
empty replacement: remove the first occurrence only. -/
def replaceFirstOcc (pat : List Char) : List Char → List Char
  | [] => []
  | c :: cs =>
      if pat.isPrefixOf (c :: cs) then (c :: cs).drop pat.length
      else c :: replaceFirstOcc pat cs

/-- JavaScript `split('/')`: cut at every slash, keeping empty pieces. -/
def splitOnSlash : List Char → List (List Char)
  | [] => [[]]
  | c :: cs =>
      let r := splitOnSlash cs
      if c == '/' then [] :: r
      else
        match r with
        | h :: t => (c :: h) :: t
        | [] => [[c]]

/-- JavaScript `join('/')`. -/
def joinSlash : List (List Char) → List Char
  | [] => []
  | [x] => x
  | x :: xs => x ++ '/' :: joinSlash xs

/-- Embedding of the token into a private HTTPS clone URL
(`https://token@host/path`): drop the first "https://", split the rest on
slashes into host and path parts, and reassemble around the token. -/
def buildAuthGitUrl (gitUrl accessToken : String) : String :=
  let urlParts := splitOnSlash (replaceFirstOcc "https://".data gitUrl.data)
  match urlParts with
  | host :: pathParts =>
      "https://" ++ accessToken ++ "@" ++ String.mk host ++ "/"
        ++ String.mk (joinSlash pathParts)
  | [] => "https://" ++ accessToken ++ "@/"

/-- The dev-command choice made by the launch snippet inside
`startDevServer`: the first of the run scripts "dev", "start", "serve"
declared in the manifest, in that order; `none` when none is declared. -/
def pickDevCommand (scripts : List String) : Option String :=
  if scripts.contains "dev" then some "npm run dev"
  else if scripts.contains "start" then some "npm start"
  else if scripts.contains "serve" then some "npm run serve"
  else none

/-- Helper `startDevServer`: when the project has a package manifest, run the
launch snippet — whose dev-command choice (`pickDevCommand`) only affects
what the snippet prints inside the sandbox — and return "https://" plus the
hostname of port 3000 (the `||` between the two template strings always
takes the first operand, a nonempty string).  The surrounding catch returns
`null`, as does the no-manifest branch. -/
def startDevServer (env : CloneEnv) (projectInfo : ProjectInfo) :
    List RemoteAction × Option String :=
  if projectInfo.hasPackageJson then
    let _devCommand := pickDevCommand env.scripts
    if env.devServerThrows then ([RemoteAction.runStartServer], none)
    else ([RemoteAction.runStartServer], some ("https://" ++ env.hostname3000))
  else ([], none)

/-- Recovery of `projectInfo` from the inspection output: the missing-text
fallback decodes to a bare `success: false`; a JSON parse failure is caught
and mapped to `success: false` with the parse-failure message; otherwise
the decoded object is used. -/
def projectInfoOf (env : CloneEnv) : ProjectInfo :=
  match env.inspectText with
  | none => { success := false, error := none, hasPackageJson := false }
  | some none =>
      { success := false, error := some "Failed to parse project info",
        hasPackageJson := false }
  | some (some pi) => pi

/-- The first remote call: attach to the supplied sandbox, or create a new
one. -/
def createActOf (p : ParsedClone) : RemoteAction :=
  match p.sandboxId with
  | some sid => RemoteAction.connectExisting sid
  | none => RemoteAction.createNew

/-- Value `targetSandboxId`: the supplied id, or the id of the freshly created
sandbox. -/
def targetSandboxIdOf (env : CloneEnv) (p : ParsedClone) : String :=
  match p.sandboxId with
  | some sid => sid
  | none => env.newSandboxId

/-- The clone command template, with the access token embedded in the URL
only when `isPrivate` and the token is truthy. -/
def cloneCommandOf (p : ParsedClone) : String :=
  let authGitUrl :=
    match p.accessToken with
    | some t => if p.isPrivate && !(t == "") then buildAuthGitUrl p.gitUrl t else p.gitUrl
    | none => p.gitUrl
  "git clone " ++ (if p.isPrivate then "-q" else "") ++ " -b " ++ p.branch ++
    " \"" ++ authGitUrl ++ "\" \"" ++ p.projectName ++ "\""

/-- The POST handler of the clone route: session check, schema parse,
sandbox create/attach, clone, inspection, conditional dependency install,
dev-server launch.  A failed inspection closes the sandbox and returns 400;
an exception during create (modelled by `createOk = false`) is caught at
the top level as a 500. -/
def clonePOST (env : CloneEnv) (body : RawCloneRequest) :
    List RemoteAction × CloneResponse :=
  if !env.sessionOk then ([], CloneResponse.failure 401 "Unauthorized")
  else
    match cloneSchemaParse body with
    | none => ([], CloneResponse.failure 400 "Invalid request data")
    | some p =>
        if !env.createOk then
          ([createActOf p], CloneResponse.failure 500 "Internal server error")
        else
          let acts := [createActOf p, RemoteAction.runClone (cloneCommandOf p),
                       RemoteAction.runInspect]
          let projectInfo := projectInfoOf env
          if !projectInfo.success then
            (acts ++ [RemoteAction.closeSandbox],
             CloneResponse.failure 400 (projectInfo.error.getD "Failed to clone repository"))
          else
            let installActs :=
              if projectInfo.hasPackageJson then [RemoteAction.runNpmInstall] else []
            let r := startDevServer env projectInfo
            (acts ++ installActs ++ r.1,
             CloneResponse.ok (targetSandboxIdOf env p) r.2)

/-!
Concrete fixtures used by witnesses and counterexamples.
-/

/-- A running record whose deadline (`autoStopAt = 900000`) is in the past
relative to the times the examples use. -/
def recOne : SandboxRecord :=
  { userId := 7, projectId := none, sandboxId := "sb-1", name := "demo",
    url := some "https://old.example", status := SandboxStatus.running,
    startedAt := 0, lastActiveAt := 0, autoStopAt := 900000, isTemporary := false }

/-- A store holding just `recOne`. -/
def dbOne : SandboxDB :=
  { sandboxes := [(1, recOne)], fileSnapshots := [], chatHistory := [], nextId := 2 }

/-- A clone request for a private repository with no access token. -/
def reqC3 : RawCloneRequest :=
  { gitUrl := "https://github.com/acme/widgets", branch := none, projectName := "widgets",
    description := none, isPrivate := some true, accessToken := none, sandboxId := none }

/-- A clone request for a public repository. -/
def reqC4 : RawCloneRequest :=
  { gitUrl := "https://github.com/acme/widgets", branch := none, projectName := "widgets",
    description := none, isPrivate := none, accessToken := none, sandboxId := none }

/-- A clone request whose `gitUrl` is not a well-formed URL. -/
def reqBadUrl : RawCloneRequest :=
  { gitUrl := "not-a-url", branch := none, projectName := "widgets",
    description := none, isPrivate := none, accessToken := none, sandboxId := none }

/-- An environment where every remote step succeeds and the inspection
reports a clean clone of a project whose manifest declares only a "build"
script (none of dev, start, serve). -/
def envOkInspect : CloneEnv :=
  { sessionOk := true, createOk := true, newSandboxId := "e2b-1", cloneExitCode := 0,
    inspectText := some (some { success := true, error := none, hasPackageJson := true }),
    scripts := ["build"], hostname3000 := "3000-e2b-1.e2b.dev",
    hostname5173 := "5173-e2b-1.e2b.dev", devServerThrows := false }

/-- An environment where the inspection step produces no output text. -/
def envNoInspect : CloneEnv :=
  { sessionOk := true, createOk := true, newSandboxId := "e2b-1", cloneExitCode := 0,
    inspectText := none, scripts := [], hostname3000 := "3000-e2b-1.e2b.dev",
    hostname5173 := "5173-e2b-1.e2b.dev", devServerThrows := false }

/-!
Helper lemmas shared by the claim theorems.
-/

/-- Patching the document a successful lookup returned keeps it in the
store, with the patch applied. -/
lemma patchSandbox_found_mem {db : SandboxDB} {sid : String} {id0 : Nat} {r0 : SandboxRecord}
    (hf : findBySandboxId sid db = some (id0, r0)) (f : SandboxRecord → SandboxRecord) :
    (id0, f r0) ∈ (patchSandbox id0 f db).sandboxes := by
  have hmem : (id0, r0) ∈ db.sandboxes := List.mem_of_find?_eq_some hf
  have h2 := List.mem_map_of_mem
    (f := fun p : Nat × SandboxRecord => if p.1 == id0 then (p.1, f p.2) else p) hmem
  simpa [patchSandbox] using h2

/-- A document with the patched id is mapped to its patched form. -/
lemma mem_patchSandbox_of_mem {db : SandboxDB} {id0 : Nat} {f : SandboxRecord → SandboxRecord}
    {p : Nat × SandboxRecord} (hp : p ∈ db.sandboxes) (hid : p.1 = id0) :
    (p.1, f p.2) ∈ (patchSandbox id0 f db).sandboxes := by
  have h2 := List.mem_map_of_mem
    (f := fun p : Nat × SandboxRecord => if p.1 == id0 then (p.1, f p.2) else p) hp
  simpa [patchSandbox, hid] using h2

/-- A successful `updateSandboxStatus` call is a lookup followed by the
status patch. -/
lemma updateSandboxStatus_ok_elim {now : Nat} {sid : String} {st : SandboxStatus}
    {u : Option String} {db : SandboxDB} {id : Nat} {db' : SandboxDB}
    (h : updateSandboxStatus now sid st u db = Except.ok (id, db')) :
    ∃ r0, findBySandboxId sid db = some (id, r0) ∧
      db' = patchSandbox id (fun r => { r with status := st, url := u, lastActiveAt := now }) db := by
  unfold updateSandboxStatus at h
  cases hf : findBySandboxId sid db with
  | none => rw [hf] at h; exact absurd h (by simp)
  | some pr =>
      obtain ⟨id0, r0⟩ := pr
      rw [hf] at h
      simp only [Except.ok.injEq, Prod.mk.injEq] at h
      obtain ⟨h1, h2⟩ := h
      subst h1
      exact ⟨r0, rfl, h2.symm⟩

/-- A successful `updateSandboxActivity` call is a lookup followed by the
activity patch. -/
lemma updateSandboxActivity_ok_elim {now : Nat} {sid : String} {db : SandboxDB}
    {id : Nat} {db' : SandboxDB}
    (h : updateSandboxActivity now sid db = Except.ok (id, db')) :
    ∃ r0, findBySandboxId sid db = some (id, r0) ∧
      db' = patchSandbox id
        (fun r => { r with lastActiveAt := now, autoStopAt := now + 15 * 60 * 1000 }) db := by
  unfold updateSandboxActivity at h
  cases hf : findBySandboxId sid db with
  | none => rw [hf] at h; exact absurd h (by simp)
  | some pr =>
      obtain ⟨id0, r0⟩ := pr
      rw [hf] at h
      simp only [Except.ok.injEq, Prod.mk.injEq] at h
      obtain ⟨h1, h2⟩ := h
      subst h1
      exact ⟨r0, rfl, h2.symm⟩

/-- A successful `stopSandbox` call is a lookup followed by the stop
patch. -/
lemma stopSandbox_ok_elim {now : Nat} {sid : String} {db : SandboxDB}
    {id : Nat} {db' : SandboxDB}
    (h : stopSandbox now sid db = Except.ok (id, db')) :
    ∃ r0, findBySandboxId sid db = some (id, r0) ∧
      db' = patchSandbox id
        (fun r => { r with status := SandboxStatus.stopped, lastActiveAt := now }) db := by
  unfold stopSandbox at h
  cases hf : findBySandboxId sid db with
  | none => rw [hf] at h; exact absurd h (by simp)
  | some pr =>
      obtain ⟨id0, r0⟩ := pr
      rw [hf] at h
      simp only [Except.ok.injEq, Prod.mk.injEq] at h
      obtain ⟨h1, h2⟩ := h
      subst h1
      exact ⟨r0, rfl, h2.symm⟩

/-- After the activity patch, every document with the patched id satisfies
the grace-window equation. -/
lemma patched_touch_grace {db : SandboxDB} {id0 now : Nat} :
    ∀ q ∈ (patchSandbox id0
        (fun r => { r with lastActiveAt := now, autoStopAt := now + 15 * 60 * 1000 })
        db).sandboxes, q.1 = id0 → q.2.autoStopAt = q.2.lastActiveAt + graceWindowMs := by
  intro q hq hqid
  simp only [patchSandbox, List.mem_map] at hq
  obtain ⟨p, hp, hfp⟩ := hq
  by_cases hpi : p.1 = id0
  · rw [if_pos (by simpa using hpi)] at hfp
    subst hfp
    rfl
  · rw [if_neg (by simpa using hpi)] at hfp
    subst hfp
    exact absurd hqid hpi

/-- List `takeWhile` stops exactly at the first failing element. -/
lemma takeWhile_append_middle {p : Char → Bool} (xs : List Char) {y : Char} (ys : List Char)
    (h1 : ∀ x ∈ xs, p x = true) (h2 : p y = false) :
    (xs ++ y :: ys).takeWhile p = xs := by
  induction xs with
  | nil => simp [List.takeWhile_cons, h2]
  | cons a as ih =>
      have ha : p a = true := h1 a (by simp)
      simp only [List.cons_append, List.takeWhile_cons, ha, if_true]
      rw [ih (fun x hx => h1 x (by simp [hx]))]

/-- List `dropWhile` drops exactly up to the first failing element. -/
lemma dropWhile_append_middle {p : Char → Bool} (xs : List Char) {y : Char} (ys : List Char)
    (h1 : ∀ x ∈ xs, p x = true) (h2 : p y = false) :
    (xs ++ y :: ys).dropWhile p = y :: ys := by
  induction xs with
  | nil => simp [List.dropWhile_cons, h2]
  | cons a as ih =>
      have ha : p a = true := h1 a (by simp)
      simp only [List.cons_append, List.dropWhile_cons, ha, if_true]
      exact ih (fun x hx => h1 x (by simp [hx]))

/-- On input of the shape owner, slash, name — with the character-class
constraints of the regex — the capture step returns exactly the owner and
name. -/
lemma captureTwo_eval {owner name : List Char} (ho : owner ≠ [])
    (ho' : ∀ c ∈ owner, c ≠ '/') (hn : name ≠ [])
    (hn' : ∀ c ∈ name, c ≠ '/' ∧ c ≠ '?') :
    captureTwo (owner ++ '/' :: name) = some (owner, name) := by
  have h1 : ∀ x ∈ owner, (!(x == '/')) = true := by
    intro x hx
    simpa using ho' x hx
  have h2 : (!(('/' : Char) == '/')) = false := by simp
  have h3 : name.takeWhile (fun c => !(c == '/') && !(c == '?')) = name := by
    rw [List.takeWhile_eq_self_iff]
    intro x hx
    simp [(hn' x hx).1, (hn' x hx).2]
  unfold captureTwo
  rw [takeWhile_append_middle owner name h1 h2, dropWhile_append_middle owner name h1 h2]
  simp only [h3]
  simp [List.isEmpty_iff, ho, hn]

/-- When the input starts with the literal and the capture step succeeds on
the remainder, the unanchored match succeeds at position zero. -/
lemma matchCapture_append {lit rest : List Char} (hlit : lit ≠ []) {o n : List Char}
    (h : captureTwo rest = some (o, n)) :
    matchCapture lit (lit ++ rest) = some (o, n) := by
  obtain ⟨c, cs, rfl⟩ : ∃ c cs, lit = c :: cs := by
    cases lit with
    | nil => exact absurd rfl hlit
    | cons c cs => exact ⟨c, cs, rfl⟩
  have hpre : (c :: cs).isPrefixOf ((c :: cs) ++ rest) = true :=
    List.isPrefixOf_iff_prefix.mpr (List.prefix_append _ _)
  have hdrop : ((c :: cs) ++ rest).drop (c :: cs).length = rest := List.drop_left _ _
  rw [List.cons_append, matchCapture, ← List.cons_append, hpre]
  simp only [if_true]
  rw [hdrop, h]

/-- When the literal occurs nowhere in the input, the unanchored match
fails. -/
lemma matchCapture_eq_none {lit : List Char} : ∀ {l : List Char}, ¬ lit <:+: l →
    matchCapture lit l = none := by
  intro l
  induction l with
  | nil => intro _; rfl
  | cons c cs ih =>
      intro h
      have hpre : lit.isPrefixOf (c :: cs) = false := by
        rw [Bool.eq_false_iff]
        intro hb
        have hb' := List.isPrefixOf_iff_prefix.mp hb
        exact h hb'.isInfix
      rw [matchCapture, hpre]
      simp only [Bool.false_eq_true, if_false]
      exact ih (fun hi => h (hi.trans (List.IsSuffix.isInfix (List.suffix_cons c cs))))

/-- The ".git" characters are a suffix of a slash-separated URL exactly
when they are a suffix of its final (slash-free) segment: the separating
slash blocks any match that would straddle the segment boundary. -/
lemma dotGit_suffix_iff (pre name : List Char) :
    dotGit <:+ pre ++ '/' :: name ↔ dotGit <:+ name := by
  constructor
  · rintro ⟨t, ht⟩
    rw [show ('/' :: name : List Char) = ['/'] ++ name from rfl, ← List.append_assoc] at ht
    rcases List.append_eq_append_iff.mp ht with ⟨a, ha1, ha2⟩ | ⟨c, _, hc2⟩
    · by_cases ha : a = []
      · subst ha
        simp only [List.nil_append] at ha2
        exact ha2 ▸ List.suffix_refl dotGit
      · exfalso
        obtain ⟨x, hx⟩ := Option.isSome_iff_exists.mp (List.getLast?_isSome.mpr ha)
        have h1 : (pre ++ ['/']).getLast? = some '/' := by
          rw [List.getLast?_append]
          rfl
        have h2 : (t ++ a).getLast? = some x := by
          rw [List.getLast?_append, hx]
          rfl
        rw [ha1, h2] at h1
        obtain rfl : x = '/' := by injection h1
        have hmem : ('/' : Char) ∈ a := List.mem_of_mem_getLast? hx
        have hslash : ('/' : Char) ∈ dotGit := ha2 ▸ List.mem_append_left name hmem
        exact absurd hslash (by decide)
    · exact ⟨c, hc2.symm⟩
  · rintro ⟨t, rfl⟩
    exact ⟨pre ++ '/' :: t, by simp⟩

/-- Stripping is the identity on a URL that does not end in ".git". -/
lemma cleanOf_no_dotGit {L : List Char} (h : ¬ dotGit <:+ L) : cleanOf L = L := by
  unfold cleanOf
  rw [if_neg (fun hb => h (List.isSuffixOf_iff_suffix.mp hb))]

/-- Stripping removes exactly one appended ".git". -/
lemma cleanOf_dotGit (L : List Char) : cleanOf (L ++ dotGit) = L := by
  unfold cleanOf
  rw [if_pos (List.isSuffixOf_iff_suffix.mpr (List.suffix_append L dotGit))]
  have h4 : dotGit.length = 4 := rfl
  rw [List.length_append, h4, Nat.add_sub_cancel]
  exact List.take_left L dotGit

/-- Evaluation of `parseGitUrl` when the HTTPS pattern matches the stripped
URL. -/
lemma parseGitUrl_of_https_match {L o n : List Char}
    (hmatch : matchCapture httpsLit (cleanOf L) = some (o, n)) :
    parseGitUrl (String.mk L)
        = some (GitRepoInfo.mk (String.mk L) (String.mk n) (String.mk o) "main" false) := by
  simp only [parseGitUrl]
  rw [hmatch]

/-- Evaluation of `parseGitUrl` when the HTTPS pattern fails and the SSH
pattern matches the stripped URL. -/
lemma parseGitUrl_of_ssh_match {L o n : List Char}
    (hhttps : matchCapture httpsLit (cleanOf L) = none)
    (hmatch : matchCapture sshLit (cleanOf L) = some (o, n)) :
    parseGitUrl (String.mk L)
        = some (GitRepoInfo.mk (String.mk L) (String.mk n) (String.mk o) "main" false) := by
  simp only [parseGitUrl]
  rw [hhttps, hmatch]

/-- The HTTPS literal (three slashes) cannot occur in an SSH URL whose
owner and name segments are slash-free (one slash in total). -/
lemma matchCapture_httpsLit_ssh {owner name : List Char}
    (hoc : ∀ c ∈ owner, c ≠ '/') (hnc : ∀ c ∈ name, c ≠ '/' ∧ c ≠ '?') :
    matchCapture httpsLit (sshLit ++ owner ++ '/' :: name) = none := by
  apply matchCapture_eq_none
  intro hinf
  have hcount := hinf.sublist.count_le '/'
  have h3 : List.count '/' httpsLit = 3 := by decide
  have hs : List.count '/' sshLit = 0 := by decide
  have hown : List.count '/' owner = 0 :=
    List.count_eq_zero.mpr (fun hc => hoc '/' hc rfl)
  have hnm : List.count '/' name = 0 :=
    List.count_eq_zero.mpr (fun hc => (hnc '/' hc).1 rfl)
  rw [h3, List.count_append, List.count_append, List.count_cons_self, hs, hown, hnm] at hcount
  omega

/-!
The claim theorems.
-/

/-- C1 (amended): `createSandbox` and `updateSandboxActivity` re-derive
`lastActiveAt` and `autoStopAt` together, establishing
`autoStopAt = lastActiveAt + graceWindowMs`; `updateSandboxStatus` and
`stopSandbox` update `lastActiveAt` to now on their own and leave
`autoStopAt` unchanged, so they do not maintain the grace-window
invariant. -/
theorem grace_rederivation_by_operation :
    (∀ (now uid : Nat) (pid : Option Nat) (sid nm : String) (url : Option String)
        (tmp : Option Bool) (db : SandboxDB),
      ∃ doc : SandboxRecord,
        (createSandbox now uid pid sid nm url tmp db).2.sandboxes
            = db.sandboxes ++ [(db.nextId, doc)] ∧
        doc.autoStopAt = doc.lastActiveAt + graceWindowMs) ∧
    (∀ (now : Nat) (sid : String) (db : SandboxDB) (id : Nat) (db' : SandboxDB),
      updateSandboxActivity now sid db = Except.ok (id, db') →
        ∀ q ∈ db'.sandboxes, q.1 = id →
          q.2.autoStopAt = q.2.lastActiveAt + graceWindowMs) ∧
    (∀ (now : Nat) (sid : String) (st : SandboxStatus) (u : Option String)
        (db : SandboxDB) (id : Nat) (db' : SandboxDB),
      updateSandboxStatus now sid st u db = Except.ok (id, db') →
        ∀ p ∈ db.sandboxes, p.1 = id →
          (p.1, { p.2 with status := st, url := u, lastActiveAt := now }) ∈ db'.sandboxes ∧
          ({ p.2 with status := st, url := u, lastActiveAt := now } : SandboxRecord).autoStopAt
              = p.2.autoStopAt) ∧
    (∀ (now : Nat) (sid : String) (db : SandboxDB) (id : Nat) (db' : SandboxDB),
      stopSandbox now sid db = Except.ok (id, db') →
        ∀ p ∈ db.sandboxes, p.1 = id →
          (p.1, { p.2 with status := SandboxStatus.stopped, lastActiveAt := now })
              ∈ db'.sandboxes ∧
          ({ p.2 with status := SandboxStatus.stopped, lastActiveAt := now }
              : SandboxRecord).autoStopAt = p.2.autoStopAt) := by
  refine ⟨?_, ?_, ?_, ?_⟩
  · intro now uid pid sid nm url tmp db
    exact ⟨_, rfl, rfl⟩
  · intro now sid db id db' h
    obtain ⟨r0, hf, hdb⟩ := updateSandboxActivity_ok_elim h
    subst hdb
    exact patched_touch_grace
  · intro now sid st u db id db' h p hp hpid
    obtain ⟨r0, hf, hdb⟩ := updateSandboxStatus_ok_elim h
    subst hdb
    exact ⟨mem_patchSandbox_of_mem hp hpid, rfl⟩
  · intro now sid db id db' h p hp hpid
    obtain ⟨r0, hf, hdb⟩ := stopSandbox_ok_elim h
    subst hdb
    exact ⟨mem_patchSandbox_of_mem hp hpid, rfl⟩

/-- C1 witness: the create part of `grace_rederivation_by_operation` at a
concrete store. -/
theorem grace_rederivation_witness :
    ∃ doc : SandboxRecord,
      (createSandbox 1000 7 none "sb-9" "demo" none none dbOne).2.sandboxes
          = dbOne.sandboxes ++ [(dbOne.nextId, doc)] ∧
      doc.autoStopAt = doc.lastActiveAt + graceWindowMs :=
  grace_rederivation_by_operation.1 1000 7 none "sb-9" "demo" none none dbOne

/-- C1 counterexample: stopping a running record at time 10000000 whose
deadline was 900000 leaves `autoStopAt` (900000) strictly below the new
`lastActiveAt` (10000000), let alone below `lastActiveAt` plus the grace
window — so the claimed invariant fails after `stopSandbox`. -/
theorem stopSandbox_breaks_grace_invariant :
    ∃ db' : SandboxDB, stopSandbox 10000000 "sb-1" dbOne = Except.ok (1, db') ∧
      ∃ q ∈ db'.sandboxes, q.1 = 1 ∧ q.2.lastActiveAt = 10000000 ∧
        q.2.autoStopAt < q.2.lastActiveAt + graceWindowMs ∧ q.2.autoStopAt < q.2.lastActiveAt := by
  refine ⟨_, rfl, (1, { recOne with status := SandboxStatus.stopped, lastActiveAt := 10000000 }),
    ?_, rfl, rfl, ?_, ?_⟩
  · decide
  · decide
  · decide

/-- C2: the reaper query returns a record exactly when its status is
`running` and its `autoStopAt` is strictly below now; in particular no
record with another status is ever returned, whatever its deadline. -/
theorem getSandboxesToAutoStop_exactly_expired (now : Nat) (db : SandboxDB)
    (p : Nat × SandboxRecord) :
    p ∈ getSandboxesToAutoStop now db ↔
      p ∈ db.sandboxes ∧ p.2.status = SandboxStatus.running ∧ p.2.autoStopAt < now := by
  simp only [getSandboxesToAutoStop, List.mem_filter, beq_iff_eq, decide_eq_true_eq]
  tauto

/-- C5: immediately after `createSandbox`, the inserted record satisfies
`autoStopAt = lastActiveAt + graceWindowMs`, and immediately after a
successful `updateSandboxActivity`, the touched record does too. -/
theorem create_touch_grace :
    (∀ (now uid : Nat) (pid : Option Nat) (sid nm : String) (url : Option String)
        (tmp : Option Bool) (db : SandboxDB),
      ∃ doc : SandboxRecord,
        (createSandbox now uid pid sid nm url tmp db).2.sandboxes
            = db.sandboxes ++ [(db.nextId, doc)] ∧
        doc.autoStopAt = doc.lastActiveAt + graceWindowMs) ∧
    (∀ (now : Nat) (sid : String) (db : SandboxDB) (id : Nat) (db' : SandboxDB),
      updateSandboxActivity now sid db = Except.ok (id, db') →
        (∃ q ∈ db'.sandboxes, q.1 = id) ∧
        ∀ q ∈ db'.sandboxes, q.1 = id →
          q.2.autoStopAt = q.2.lastActiveAt + graceWindowMs) := by
  constructor
  · intro now uid pid sid nm url tmp db
    exact ⟨_, rfl, rfl⟩
  · intro now sid db id db' h
    obtain ⟨r0, hf, hdb⟩ := updateSandboxActivity_ok_elim h
    subst hdb
    constructor
    · exact ⟨_, patchSandbox_found_mem hf _, rfl⟩
    · exact patched_touch_grace

/-- C5 witness: the create part of `create_touch_grace` at a concrete
store. -/
theorem create_touch_grace_witness :
    ∃ doc : SandboxRecord,
      (createSandbox 500 3 none "sb-2" "w" none none dbOne).2.sandboxes
          = dbOne.sandboxes ++ [(dbOne.nextId, doc)] ∧
      doc.autoStopAt = doc.lastActiveAt + graceWindowMs :=
  create_touch_grace.1 500 3 none "sb-2" "w" none none dbOne

/-- C7: when no record carries the given `sandboxId`, all three keyed
mutations throw "Sandbox not found" — an `Except.error`, so no patched or
shrunken store is ever produced and the error reaches the caller. -/
theorem notFound_rejected (db : SandboxDB) (sid : String) (now : Nat)
    (st : SandboxStatus) (u : Option String) (h : findBySandboxId sid db = none) :
    updateSandboxStatus now sid st u db = Except.error "Sandbox not found" ∧
    updateSandboxActivity now sid db = Except.error "Sandbox not found" ∧
    deleteSandbox sid db = Except.error "Sandbox not found" := by
  refine ⟨?_, ?_, ?_⟩ <;>
    simp [updateSandboxStatus, updateSandboxActivity, deleteSandbox, h]

/-- C7 witness: the three mutations on the empty store. -/
theorem notFound_rejected_witness :
    updateSandboxStatus 0 "sb-1" SandboxStatus.running none ⟨[], [], [], 0⟩
        = Except.error "Sandbox not found" ∧
    updateSandboxActivity 0 "sb-1" ⟨[], [], [], 0⟩ = Except.error "Sandbox not found" ∧
    deleteSandbox "sb-1" ⟨[], [], [], 0⟩ = Except.error "Sandbox not found" :=
  notFound_rejected ⟨[], [], [], 0⟩ "sb-1" 0 SandboxStatus.running none rfl

/-- C9: a successful `updateSandboxStatus` writes its `url` argument into
the record unconditionally — `none` clears a previously stored url — sets
`status` and `lastActiveAt`, leaves every other field of the record and
every other document and table unchanged. -/
theorem updateSandboxStatus_overwrites_url (db : SandboxDB) (now : Nat) (sid : String)
    (st : SandboxStatus) (u : Option String) (id : Nat) (r : SandboxRecord)
    (h : findBySandboxId sid db = some (id, r)) :
    ∃ db', updateSandboxStatus now sid st u db = Except.ok (id, db') ∧
      db'.fileSnapshots = db.fileSnapshots ∧
      db'.chatHistory = db.chatHistory ∧
      db'.nextId = db.nextId ∧
      db'.sandboxes = db.sandboxes.map (fun p =>
        if p.1 == id then (p.1, { p.2 with status := st, url := u, lastActiveAt := now })
        else p) ∧
      (∀ q : SandboxRecord,
        ({ q with status := st, url := u, lastActiveAt := now } : SandboxRecord).url = u ∧
        ({ q with status := st, url := u, lastActiveAt := now } : SandboxRecord).status = st ∧
        ({ q with status := st, url := u, lastActiveAt := now } : SandboxRecord).lastActiveAt = now ∧
        ({ q with status := st, url := u, lastActiveAt := now } : SandboxRecord).userId = q.userId ∧
        ({ q with status := st, url := u, lastActiveAt := now } : SandboxRecord).projectId = q.projectId ∧
        ({ q with status := st, url := u, lastActiveAt := now } : SandboxRecord).sandboxId = q.sandboxId ∧
        ({ q with status := st, url := u, lastActiveAt := now } : SandboxRecord).name = q.name ∧
        ({ q with status := st, url := u, lastActiveAt := now } : SandboxRecord).startedAt = q.startedAt ∧
        ({ q with status := st, url := u, lastActiveAt := now } : SandboxRecord).autoStopAt = q.autoStopAt ∧
        ({ q with status := st, url := u, lastActiveAt := now } : SandboxRecord).isTemporary = q.isTemporary) := by
  refine ⟨patchSandbox id (fun r => { r with status := st, url := u, lastActiveAt := now }) db,
    ?_, rfl, rfl, rfl, rfl, ?_⟩
  · simp [updateSandboxStatus, h]
  · intro q
    exact ⟨rfl, rfl, rfl, rfl, rfl, rfl, rfl, rfl, rfl, rfl⟩

/-- C9 witness: clearing the stored url of `recOne` by calling
`updateSandboxStatus` with the url argument omitted. -/
theorem updateSandboxStatus_overwrites_url_witness :
    ∃ db', updateSandboxStatus 5 "sb-1" SandboxStatus.stopped none dbOne = Except.ok (1, db') ∧
      db'.fileSnapshots = dbOne.fileSnapshots ∧
      db'.chatHistory = dbOne.chatHistory ∧
      db'.nextId = dbOne.nextId ∧
      db'.sandboxes = dbOne.sandboxes.map (fun p =>
        if p.1 == 1 then
          (p.1, { p.2 with status := SandboxStatus.stopped, url := none, lastActiveAt := 5 })
        else p) ∧
      (∀ q : SandboxRecord,
        ({ q with status := SandboxStatus.stopped, url := none, lastActiveAt := 5 }
            : SandboxRecord).url = none ∧
        ({ q with status := SandboxStatus.stopped, url := none, lastActiveAt := 5 }
            : SandboxRecord).status = SandboxStatus.stopped ∧
        ({ q with status := SandboxStatus.stopped, url := none, lastActiveAt := 5 }
            : SandboxRecord).lastActiveAt = 5 ∧
        ({ q with status := SandboxStatus.stopped, url := none, lastActiveAt := 5 }
            : SandboxRecord).userId = q.userId ∧
        ({ q with status := SandboxStatus.stopped, url := none, lastActiveAt := 5 }
            : SandboxRecord).projectId = q.projectId ∧
        ({ q with status := SandboxStatus.stopped, url := none, lastActiveAt := 5 }
            : SandboxRecord).sandboxId = q.sandboxId ∧
        ({ q with status := SandboxStatus.stopped, url := none, lastActiveAt := 5 }
            : SandboxRecord).name = q.name ∧
        ({ q with status := SandboxStatus.stopped, url := none, lastActiveAt := 5 }
            : SandboxRecord).startedAt = q.startedAt ∧
        ({ q with status := SandboxStatus.stopped, url := none, lastActiveAt := 5 }
            : SandboxRecord).autoStopAt = q.autoStopAt ∧
        ({ q with status := SandboxStatus.stopped, url := none, lastActiveAt := 5 }
            : SandboxRecord).isTemporary = q.isTemporary) :=
  updateSandboxStatus_overwrites_url dbOne 5 "sb-1" SandboxStatus.stopped none 1 recOne (by decide)

/-- C3 (amended): only a request failing the schema — `gitUrl` not a
well-formed URL or an empty `projectName` — receives the 400 validation
response with no remote call; every request that passes the schema,
including one with `isPrivate` true and no `accessToken`, proceeds
directly to the remote sandbox create or attach call. -/
theorem clone_validation_gate :
    (∀ (env : CloneEnv) (body : RawCloneRequest), env.sessionOk = true →
      cloneSchemaParse body = none →
      clonePOST env body = ([], CloneResponse.failure 400 "Invalid request data")) ∧
    (∀ (env : CloneEnv) (body : RawCloneRequest) (p : ParsedClone), env.sessionOk = true →
      cloneSchemaParse body = some p →
      (clonePOST env body).1.head? = some (createActOf p)) := by
  constructor
  · intro env body hs hp
    simp [clonePOST, hs, hp]
  · intro env body p hs hp
    unfold clonePOST
    rw [hs, hp]
    cases hc : env.createOk with
    | false => simp
    | true =>
        cases hsucc : (projectInfoOf env).success with
        | false => simp [hsucc]
        | true => simp [hsucc]

/-- C3 witness: the malformed request is rejected with no remote call; the
well-formed request reaches the create call first. -/
theorem clone_validation_gate_witness :
    clonePOST envOkInspect reqBadUrl = ([], CloneResponse.failure 400 "Invalid request data") ∧
    (clonePOST envOkInspect reqC4).1.head? = some (createActOf
      { gitUrl := "https://github.com/acme/widgets", branch := "main",
        projectName := "widgets", description := none, isPrivate := false,
        accessToken := none, sandboxId := none }) :=
  ⟨clone_validation_gate.1 envOkInspect reqBadUrl rfl (by decide),
   clone_validation_gate.2 envOkInspect reqC4 _ rfl (by decide)⟩

/-- C3 counterexample: a request with `isPrivate` true and no access token
passes validation and the handler issues the remote create call — no
400-class validation error precedes the remote calls, contradicting the
claim. -/
theorem private_clone_without_token_proceeds :
    reqC3.isPrivate = some true ∧ reqC3.accessToken = none ∧
    RemoteAction.createNew ∈ (clonePOST envOkInspect reqC3).1 ∧
    (clonePOST envOkInspect reqC3).2
        = CloneResponse.ok "e2b-1" (some "https://3000-e2b-1.e2b.dev") := by
  refine ⟨rfl, rfl, ?_, ?_⟩ <;> decide

/-- C4 (amended): the url returned by the dev-server step never consults
the manifest scripts — whenever the package manifest exists and no
exception occurs, the response is success with `serverUrl` set to the
port-3000 hostname URL, even when `pickDevCommand` (the dev, start, serve
priority lookup of the launch snippet) finds nothing; `serverUrl` is null
only without a manifest or on an exception. -/
theorem serverUrl_ignores_scripts :
    (∀ (env : CloneEnv) (pi : ProjectInfo) (s1 s2 : List String),
      startDevServer { env with scripts := s1 } pi = startDevServer { env with scripts := s2 } pi) ∧
    (∀ (env : CloneEnv) (pi : ProjectInfo), pi.hasPackageJson = true →
      env.devServerThrows = false →
      (startDevServer env pi).2 = some ("https://" ++ env.hostname3000)) ∧
    (∀ (env : CloneEnv) (pi : ProjectInfo), pi.hasPackageJson = false →
      (startDevServer env pi).2 = none) ∧
    (∀ (env : CloneEnv) (body : RawCloneRequest) (p : ParsedClone),
      env.sessionOk = true → cloneSchemaParse body = some p → env.createOk = true →
      (projectInfoOf env).success = true → (projectInfoOf env).hasPackageJson = true →
      env.devServerThrows = false →
      (clonePOST env body).2 = CloneResponse.ok (targetSandboxIdOf env p)
          (some ("https://" ++ env.hostname3000))) := by
  refine ⟨?_, ?_, ?_, ?_⟩
  · intro env pi s1 s2
    cases env
    rfl
  · intro env pi h1 h2
    simp [startDevServer, h1, h2]
  · intro env pi h1
    simp [startDevServer, h1]
  · intro env body p hs hp hc hsucc hpkg hthrow
    unfold clonePOST
    rw [hs, hp, hc]
    simp [hsucc, startDevServer, hpkg, hthrow]

/-- C4 witness: the response part of `serverUrl_ignores_scripts` at the
concrete environment whose manifest declares only a "build" script. -/
theorem serverUrl_ignores_scripts_witness :
    (clonePOST envOkInspect reqC4).2 = CloneResponse.ok (targetSandboxIdOf envOkInspect
      { gitUrl := "https://github.com/acme/widgets", branch := "main",
        projectName := "widgets", description := none, isPrivate := false,
        accessToken := none, sandboxId := none })
      (some ("https://" ++ envOkInspect.hostname3000)) :=
  serverUrl_ignores_scripts.2.2.2 envOkInspect reqC4 _ rfl (by decide) rfl rfl rfl rfl

/-- C4 counterexample: a clone of a project whose manifest declares none of
dev, start, serve (`pickDevCommand` is `none`) still answers success with
`serverUrl` equal to the port-3000 hostname URL — not null as claimed. -/
theorem no_dev_script_still_returns_url :
    pickDevCommand envOkInspect.scripts = none ∧
    (clonePOST envOkInspect reqC4).2
        = CloneResponse.ok "e2b-1" (some "https://3000-e2b-1.e2b.dev") := by
  exact ⟨rfl, by decide⟩

/-- C6: whenever the recovered inspection result is not a success — the
target directory was reported absent, the inspection text is missing, or
its last line does not parse — the handler closes the sandbox as its last
remote call and answers 400, and the whole handler never reads the clone
command exit status. -/
theorem failed_inspection_closes_sandbox_400 :
    (∀ (env : CloneEnv) (body : RawCloneRequest) (p : ParsedClone),
      env.sessionOk = true → cloneSchemaParse body = some p → env.createOk = true →
      (projectInfoOf env).success = false →
      clonePOST env body =
        ([createActOf p, RemoteAction.runClone (cloneCommandOf p), RemoteAction.runInspect,
          RemoteAction.closeSandbox],
         CloneResponse.failure 400
           ((projectInfoOf env).error.getD "Failed to clone repository"))) ∧
    (∀ (env : CloneEnv) (body : RawCloneRequest) (c : Int),
      clonePOST { env with cloneExitCode := c } body = clonePOST env body) ∧
    (∀ env : CloneEnv, env.inspectText = none ∨ env.inspectText = some none →
      (projectInfoOf env).success = false) := by
  refine ⟨?_, ?_, ?_⟩
  · intro env body p hs hp hc hsucc
    unfold clonePOST
    rw [hs, hp, hc]
    simp [hsucc]
  · intro env body c
    cases env
    rfl
  · intro env h
    rcases h with h | h <;> simp [projectInfoOf, h]

/-- C6 witness: the failure part of `failed_inspection_closes_sandbox_400`
at the environment whose inspection produced no output. -/
theorem failed_inspection_closes_sandbox_400_witness :
    clonePOST envNoInspect reqC4 =
      ([createActOf
          { gitUrl := "https://github.com/acme/widgets", branch := "main",
            projectName := "widgets", description := none, isPrivate := false,
            accessToken := none, sandboxId := none },
        RemoteAction.runClone (cloneCommandOf
          { gitUrl := "https://github.com/acme/widgets", branch := "main",
            projectName := "widgets", description := none, isPrivate := false,
            accessToken := none, sandboxId := none }),
        RemoteAction.runInspect, RemoteAction.closeSandbox],
       CloneResponse.failure 400
         ((projectInfoOf envNoInspect).error.getD "Failed to clone repository")) :=
  failed_inspection_closes_sandbox_400.1 envNoInspect reqC4 _ rfl (by decide) rfl rfl

/-- C8: for every owner and name made of regex-admissible characters (a
nonempty slash-free owner, a nonempty slash- and question-mark-free name
not itself ending in ".git"), `parseGitUrl` extracts the same owner and
name pair from the HTTPS form and the SSH form, with and without a
trailing ".git" suffix. -/
theorem parseGitUrl_https_ssh_roundtrip (owner name : List Char)
    (ho : owner ≠ []) (ho' : ∀ c ∈ owner, c ≠ '/')
    (hn : name ≠ []) (hn' : ∀ c ∈ name, c ≠ '/' ∧ c ≠ '?')
    (hng : ¬ dotGit <:+ name) :
    ((parseGitUrl (String.mk (httpsLit ++ owner ++ '/' :: name))).map
        (fun r => (r.owner, r.name)) = some (String.mk owner, String.mk name)) ∧
    ((parseGitUrl (String.mk ((httpsLit ++ owner ++ '/' :: name) ++ dotGit))).map
        (fun r => (r.owner, r.name)) = some (String.mk owner, String.mk name)) ∧
    ((parseGitUrl (String.mk (sshLit ++ owner ++ '/' :: name))).map
        (fun r => (r.owner, r.name)) = some (String.mk owner, String.mk name)) ∧
    ((parseGitUrl (String.mk ((sshLit ++ owner ++ '/' :: name) ++ dotGit))).map
        (fun r => (r.owner, r.name)) = some (String.mk owner, String.mk name)) := by
  have hcap : captureTwo (owner ++ '/' :: name) = some (owner, name) :=
    captureTwo_eval ho ho' hn hn'
  have hHne : httpsLit ≠ [] := by decide
  have hSne : sshLit ≠ [] := by decide
  have hHfull : ¬ dotGit <:+ httpsLit ++ owner ++ '/' :: name := fun hs =>
    hng ((dotGit_suffix_iff (httpsLit ++ owner) name).mp hs)
  have hSfull : ¬ dotGit <:+ sshLit ++ owner ++ '/' :: name := fun hs =>
    hng ((dotGit_suffix_iff (sshLit ++ owner) name).mp hs)
  have hHmatch : matchCapture httpsLit (httpsLit ++ owner ++ '/' :: name)
      = some (owner, name) := by
    rw [List.append_assoc]
    exact matchCapture_append hHne hcap
  have hSmatch : matchCapture sshLit (sshLit ++ owner ++ '/' :: name)
      = some (owner, name) := by
    rw [List.append_assoc]
    exact matchCapture_append hSne hcap
  have hSno : matchCapture httpsLit (sshLit ++ owner ++ '/' :: name) = none :=
    matchCapture_httpsLit_ssh ho' hn'
  refine ⟨?_, ?_, ?_, ?_⟩
  · rw [parseGitUrl_of_https_match (by rw [cleanOf_no_dotGit hHfull]; exact hHmatch)]
    rfl
  · rw [parseGitUrl_of_https_match (by rw [cleanOf_dotGit]; exact hHmatch)]
    rfl
  · rw [parseGitUrl_of_ssh_match (by rw [cleanOf_no_dotGit hSfull]; exact hSno)
      (by rw [cleanOf_no_dotGit hSfull]; exact hSmatch)]
    rfl
  · rw [parseGitUrl_of_ssh_match (by rw [cleanOf_dotGit]; exact hSno)
      (by rw [cleanOf_dotGit]; exact hSmatch)]
    rfl

/-- C8 witness: the four URL forms of the acme/widgets repository all parse
to the same owner and name pair. -/
theorem parseGitUrl_roundtrip_witness :
    ((parseGitUrl (String.mk (httpsLit ++ "acme".data ++ '/' :: "widgets".data))).map
        (fun r => (r.owner, r.name))
      = some (String.mk "acme".data, String.mk "widgets".data)) ∧
    ((parseGitUrl (String.mk ((httpsLit ++ "acme".data ++ '/' :: "widgets".data) ++ dotGit))).map
        (fun r => (r.owner, r.name))
      = some (String.mk "acme".data, String.mk "widgets".data)) ∧
    ((parseGitUrl (String.mk (sshLit ++ "acme".data ++ '/' :: "widgets".data))).map
        (fun r => (r.owner, r.name))
      = some (String.mk "acme".data, String.mk "widgets".data)) ∧
    ((parseGitUrl (String.mk ((sshLit ++ "acme".data ++ '/' :: "widgets".data) ++ dotGit))).map
        (fun r => (r.owner, r.name))
      = some (String.mk "acme".data, String.mk "widgets".data)) :=
  parseGitUrl_https_ssh_roundtrip "acme".data "widgets".data (by decide) (by decide)
    (by decide) (by decide) (by decide)

/-- C10: the results of `validateRepository` and `getBranches` do not
depend on the supplied access token, for every fetch environment — the
Authorization header each builds is never attached to the request the code
actually sends (`fetch(apiUrl)` with no init object). -/
theorem github_credential_noninterference :
    (∀ (env : FetchEnv) (gitUrl : String) (t1 t2 : Option String),
      validateRepository env gitUrl t1 = validateRepository env gitUrl t2) ∧
    (∀ (env : FetchEnv) (gitUrl : String) (t1 t2 : Option String),
      getBranches env gitUrl t1 = getBranches env gitUrl t2) := by
  constructor <;> intro env gitUrl t1 t2 <;> rfl
